import Mathlib

/-!
Verification of the routing / query-resolution core of the
Student-Portfolio-RAG-Chatbot repository.

The Python source is embedded shallowly:

* `DataQueryEngine._execute_structured_query`, `_execute_analytical_query`
  and `query_data` (app/components/data_query_engine.py) become pure Lean
  functions over an explicit table (`List Row`) and the parsed JSON text
  that the language model returned.  The language-model calls themselves
  are oracles: their textual output is a parameter.
* Python exceptions are modelled with `Except PyErr`; `PyErr.caught`
  stands for the classes handled by the inner `except` blocks
  (`json.JSONDecodeError`, `KeyError`, `ValueError`) and `PyErr.uncaught`
  for every other exception (`AttributeError`, `TypeError`, ...).
* Machine strings are Lean `String`s; Python `str.lower`, `str.title`,
  `str.strip`, substring test and `sorted` are re-implemented on `List Char`
  so that every definition evaluates by kernel reduction.
* The table loader (`DataQueryEngine.__init__`) and the Flask router
  (`application.get_response`) are embedded likewise.
-/

/-! ## Python string primitives -/

/-- Python `str.lower` (ASCII, as `Char.toLower`): lower-case every character. -/
def lowerStr (s : String) : String :=
  String.mk (s.data.map Char.toLower)

/-- One step of Python `str.title`: the boolean records whether the previous
character was alphabetic (i.e. we are inside a word). -/
def pyTitleAux : List Char → Bool → List Char
  | [], _ => []
  | c :: t, prevAlpha =>
    if c.isAlpha then
      (if prevAlpha then c.toLower else c.toUpper) :: pyTitleAux t true
    else
      c :: pyTitleAux t false

/-- Python `str.title`: first letter of every word upper-cased, the rest
lower-cased, word = maximal run of letters. -/
def pyTitle (s : String) : String :=
  String.mk (pyTitleAux s.data false)

/-- Python `str.strip`: drop leading and trailing whitespace. -/
def pyStrip (s : String) : String :=
  String.mk (((s.data.dropWhile Char.isWhitespace).reverse.dropWhile
    Char.isWhitespace).reverse)

/-- `listIsPrefixOf n h`: the list `n` is a prefix of `h`. -/
def listIsPrefixOf : List Char → List Char → Bool
  | [], _ => true
  | _ :: _, [] => false
  | a :: as, b :: bs => a == b && listIsPrefixOf as bs

/-- `containsList n h`: the list `n` occurs as contiguous infix of `h`
(Python `n in h` on strings). -/
def containsList (n : List Char) : List Char → Bool
  | [] => n.isEmpty
  | c :: t => listIsPrefixOf n (c :: t) || containsList n t

/-- Python `needle in hay` on strings. -/
def containsStr (hay needle : String) : Bool :=
  containsList needle.data hay.data

/-- Lexicographic (code-point) `≤` on character lists: Python string `<=`. -/
def chLe : List Char → List Char → Bool
  | [], _ => true
  | _ :: _, [] => false
  | a :: as, b :: bs => if a == b then chLe as bs else decide (a.toNat < b.toNat)

/-- Python `<=` on strings (code-point lexicographic). -/
def strLeB (a b : String) : Bool :=
  chLe a.data b.data

/-- Insert into a sorted list w.r.t. a boolean comparator (stable). -/
def insertBy (le : α → α → Bool) (a : α) : List α → List α
  | [] => [a]
  | b :: t => if le a b then a :: b :: t else b :: insertBy le a t

/-- Stable insertion sort by a boolean comparator; extensionally Python's
(stable) `sorted` for any total transitive comparator. -/
def sortBy (le : α → α → Bool) : List α → List α
  | [] => []
  | a :: t => insertBy le a (sortBy le t)

/-- Helper for `pdUnique`: keep the elements not seen yet, in order. -/
def pdUniqueAux [BEq α] (seen : List α) : List α → List α
  | [] => []
  | a :: t => if seen.contains a then pdUniqueAux seen t
              else a :: pdUniqueAux (a :: seen) t

/-- First-occurrence deduplication: pandas `Series.unique`. -/
def pdUnique [BEq α] : List α → List α :=
  pdUniqueAux []

/-- Number a list of lines starting at `n`: Python
`[f"{i+1}. {x}" for i, x in enumerate(l)]` is `numberFrom 1`. -/
def numberFrom : Nat → List String → List String
  | _, [] => []
  | n, s :: t => (toString n ++ ". " ++ s) :: numberFrom (n + 1) t

/-- Python `sep.join(l)`. -/
def joinSep (sep : String) : List String → String
  | [] => ""
  | [x] => x
  | x :: y :: t => x ++ sep ++ joinSep sep (y :: t)

/-! ## Data model: table cells, rows, JSON, Python exceptions -/

/-- A table cell: the achievement table holds strings and (for
`credit_awarded`) integers. -/
inductive CellVal where
  | str (s : String)
  | int (n : Int)
deriving DecidableEq, Repr

/-- Python `str(value)` on a cell. -/
def cellStr : CellVal → String
  | .str s => s
  | .int n => toString n

/-- A row of the pandas DataFrame, as an association list from column name
to cell value. -/
abbrev Row := List (String × CellVal)

/-- The DataFrame `self.df`: a list of rows. -/
abbrev Table := List Row

/-- `hasCol df c`: every row carries column `c` (pandas: `c` is one of the
frame's columns). -/
def hasCol (df : Table) (c : String) : Bool :=
  df.all (fun r => (r.lookup c).isSome)

/-- The values of column `c`, in row order (pandas `df[c]`). -/
def colVals (df : Table) (c : String) : List CellVal :=
  df.filterMap (fun r => r.lookup c)

/-- The JSON values produced by `json.loads` on the extraction output
(numbers restricted to integers, the only kind the engine's data uses). -/
inductive Json where
  | null
  | bool (b : Bool)
  | num (n : Int)
  | str (s : String)
  | arr (elems : List Json)
  | obj (fields : List (String × Json))

/-- Python truthiness of `dict.get(k)`: `None` (missing key or JSON null),
empty string, zero, `False` and empty containers are falsy. -/
def pyTruthy : Option Json → Bool
  | none => false
  | some .null => false
  | some (.bool b) => b
  | some (.num n) => !(n == 0)
  | some (.str s) => !s.isEmpty
  | some (.arr l) => !l.isEmpty
  | some (.obj l) => !l.isEmpty

/-- `v is not None` on the result of `dict.get(k)`. -/
def pyNotNone : Option Json → Bool
  | none => false
  | some .null => false
  | some _ => true

/-- Exception classes, coarsened to what the engine's `except` clauses
distinguish: `caught` is `json.JSONDecodeError ∪ KeyError ∪ ValueError`
(handled by the first `except`), `uncaught` is every other exception
(`AttributeError`, `TypeError`, ...). -/
inductive PyErr where
  | caught
  | uncaught
deriving DecidableEq, Repr

/-! ## DataQueryEngine: structured (simple_filter) path -/

/-- Fixed user-facing strings of `data_query_engine.py`. -/
def noResultsMsg : String := "No results found for that query."

def structuredApology : String :=
  "Sorry, I had trouble understanding the structure of that query."

def analyticalApology : String :=
  "Sorry, I had trouble creating a plan for that analytical query."

def unexpectedApology : String :=
  "Sorry, I was unable to process that data query."

def routerApology : String :=
  "Sorry, I encountered an error while processing your query."

/-- All cells integers (`asInts l = some ns`), else `none`. -/
def asInts : List CellVal → Option (List Int)
  | [] => some []
  | .int n :: t => (asInts t).map (n :: ·)
  | .str _ :: _ => none

/-- All cells strings (`asStrs l = some ss`), else `none`. -/
def asStrs : List CellVal → Option (List String)
  | [] => some []
  | .str s :: t => (asStrs t).map (s :: ·)
  | .int _ :: _ => none

/-- `df[col]` as used for projection: the column key must be a string naming
an existing column, else pandas raises `KeyError` (caught).  A list/dict key
would select multiple columns / raise `TypeError`; modelled as uncaught. -/
def projectCol (df : Table) (rows : Table) (colj : Option Json) :
    Except PyErr (List CellVal) :=
  match colj with
  | some (.str c) => if hasCol df c then .ok (colVals rows c) else .error .caught
  | some (.arr _) => .error .uncaught
  | some (.obj _) => .error .uncaught
  | _ => .error .caught

/-- Post-processing of the structured path (`data_query_engine.py`
lines 154-159): `unique().tolist()`, the empty check, Python `sorted`,
title-casing and 1-indexed numbering.  Python `sorted` raises `TypeError`
(uncaught) on a type-mixed list. -/
def resultTextOf (series : List CellVal) : Except PyErr String :=
  let uniq := pdUnique series
  if uniq.isEmpty then .ok noResultsMsg
  else
    match asStrs uniq with
    | some ss =>
        .ok ("Here are the results:\n" ++
          joinSep "\n" (numberFrom 1 ((sortBy strLeB ss).map pyTitle)))
    | none =>
        match asInts uniq with
        | some ns =>
            .ok ("Here are the results:\n" ++
              joinSep "\n" (numberFrom 1
                ((sortBy (fun a b => decide (a ≤ b)) ns).map
                  (fun n => pyTitle (toString n)))))
        | none => .error .uncaught

/-- Body of `DataQueryEngine._execute_structured_query` after the LLM call:
`parsed` is the result of `json.loads` on the model output (`none` =
`JSONDecodeError`).  Returns the produced string or the escaping
exception class. -/
def execStructuredCore (df : Table) (parsed : Option Json) :
    Except PyErr String :=
  match parsed with
  | none => .error .caught
  | some (Json.obj fields) =>
    let colFilter := fields.lookup "column_to_filter"
    let valFilter := fields.lookup "filter_value"
    let colReturn := fields.lookup "column_to_return"
    if !pyTruthy colReturn then .error .caught
    else
      let series : Except PyErr (List CellVal) :=
        if pyTruthy colFilter && pyNotNone valFilter then
          match colFilter with
          | some (.str cf) =>
            if hasCol df cf then
              match valFilter with
              | some (.str v) =>
                projectCol df
                  (df.filter (fun r =>
                    r.lookup cf == some (.str (lowerStr v)))) colReturn
              | _ => .error .uncaught
            else .error .caught
          | some (.arr _) => .error .uncaught
          | some (.obj _) => .error .uncaught
          | _ => .error .caught
        else
          projectCol df df colReturn
      match series with
      | .error e => .error e
      | .ok vals => resultTextOf vals
  | some _ => .error .uncaught

/-- `DataQueryEngine._execute_structured_query`: the inner handler catches
`JSONDecodeError`/`KeyError`/`ValueError` and returns the fixed apology;
any other exception escapes. -/
def execute_structured_query (df : Table) (parsed : Option Json) :
    Except PyErr String :=
  match execStructuredCore df parsed with
  | .ok s => .ok s
  | .error .caught => .ok structuredApology
  | .error .uncaught => .error .uncaught

/-! ## DataQueryEngine: analytical (complex_analysis) path -/

/-- Python `sorted` on a list of cells: sorts a homogeneous list (all
strings by code points, all integers numerically); a type-mixed list
raises `TypeError` (uncaught). -/
def pySortCells (l : List CellVal) : Except PyErr (List CellVal) :=
  match asStrs l with
  | some ss => .ok ((sortBy strLeB ss).map CellVal.str)
  | none =>
    match asInts l with
    | some ns => .ok ((sortBy (fun a b => decide (a ≤ b)) ns).map CellVal.int)
    | none => .error .uncaught

/-- The distinct values of the group-by column in pandas `groupby` key
order (`sort=True`: ascending). -/
def groupKeysSorted (df : Table) (g : String) : Except PyErr (List CellVal) :=
  pySortCells (pdUnique (colVals df g))

/-- The rows of the group with key `k`. -/
def groupRows (df : Table) (g : String) (k : CellVal) : Table :=
  df.filter (fun r => r.lookup g == some k)

/-- `df.groupby(g)[a].sum()[k]` for an integer column `a`. -/
def sumFor (df : Table) (g a : String) (k : CellVal) : Int :=
  ((colVals (groupRows df g k) a).filterMap
    (fun c => match c with | .int n => some n | _ => none)).sum

/-- `df.groupby(g).size()[k]`: the number of rows in group `k`. -/
def countFor (df : Table) (g : String) (k : CellVal) : Int :=
  (groupRows df g k).length

/-- `grouped.sum()` as a key-indexed series: integer sums per group, in key
order; pandas `sum` over a non-integer column concatenates / raises,
modelled as uncaught. -/
def groupedSum (df : Table) (g a : String) :
    Except PyErr (List (CellVal × Int)) :=
  match groupKeysSorted df g with
  | .error e => .error e
  | .ok keys =>
    match asInts (colVals df a) with
    | some _ => .ok (keys.map (fun k => (k, sumFor df g a k)))
    | none => .error .uncaught

/-- `grouped.size()` as a key-indexed series. -/
def groupedSize (df : Table) (g : String) :
    Except PyErr (List (CellVal × Int)) :=
  match groupKeysSorted df g with
  | .error e => .error e
  | .ok keys => .ok (keys.map (fun k => (k, countFor df g k)))

/-- `series.idxmax()`: the first index (in series order) attaining the
maximal value; raises `ValueError` (caught) on an empty series. -/
def idxmaxAux : List (CellVal × Int) → (CellVal × Int) → CellVal
  | [], best => best.1
  | p :: t, best => if best.2 < p.2 then idxmaxAux t p else idxmaxAux t best

def seriesIdxmax (l : List (CellVal × Int)) : Except PyErr CellVal :=
  match l with
  | [] => .error .caught
  | p :: t => .ok (idxmaxAux t p)

/-- `series.sort_values(ascending=b)` on an integer-valued series (stable
in the model; pandas leaves tie order unspecified). -/
def sortValuesBy (asc : Bool) (l : List (CellVal × Int)) :
    List (CellVal × Int) :=
  sortBy (fun p q => if asc then decide (p.2 ≤ q.2) else decide (q.2 ≤ p.2)) l

/-- `plan.get('sort_ascending', False)` fed to `sort_values`: missing key
defaults to `False`; a non-boolean value makes pandas'
`validate_ascending` raise `ValueError` (caught); an integer is accepted
as a truth value. -/
def ascendingOf (j : Option Json) : Except PyErr Bool :=
  match j with
  | none => .ok false
  | some (.bool b) => .ok b
  | some (.num n) => .ok (!(n == 0))
  | some _ => .error .caught

/-- `series.head(plan.get('top_n', 10))`: missing key defaults to 10,
`None` slices the whole series, a negative integer drops that many rows
from the end, a non-integer raises `TypeError` (uncaught). -/
def headPy (j : Option Json) (l : List (CellVal × Int)) :
    Except PyErr (List (CellVal × Int)) :=
  match j with
  | none => .ok (l.take 10)
  | some .null => .ok l
  | some (.num n) =>
      .ok (if n < 0 then l.take (l.length - (-n).toNat) else l.take n.toNat)
  | some _ => .error .uncaught

/-- Body of `DataQueryEngine._execute_analytical_query` after the LLM
call: `parsed` is the result of `json.loads` on the model's plan (`none` =
`JSONDecodeError`). -/
def execAnalyticalCore (df : Table) (parsed : Option Json) :
    Except PyErr String :=
  match parsed with
  | none => .error .caught
  | some (Json.obj fields) =>
    -- plan['groupby_col'] / plan['agg_col']: KeyError when missing; the
    -- groupby key and the selected column must name existing columns
    -- (else KeyError); a null key raises TypeError (uncaught).
    match fields.lookup "groupby_col", fields.lookup "agg_col" with
    | none, _ => .error .caught
    | _, none => .error .caught
    | some gj, some aj =>
      match gj, aj with
      | .str g, .str a =>
        if hasCol df g && hasCol df a then
          match fields.lookup "agg_func" with
          | none => .error .caught
          | some (.str "sum") =>
            (groupedSum df g a).bind (fun aggregated =>
              (ascendingOf (fields.lookup "sort_ascending")).bind (fun asc =>
                (headPy (fields.lookup "top_n")
                    (sortValuesBy asc aggregated)).bind (fun top =>
                  let result := top.map Prod.fst
                  if result.isEmpty then .ok noResultsMsg
                  else .ok ("Here are the results:\n" ++
                    joinSep "\n" (numberFrom 1
                      (result.map (fun k => pyTitle (cellStr k))))))))
          | some (.str "count") =>
            (groupedSize df g).bind (fun aggregated =>
              (ascendingOf (fields.lookup "sort_ascending")).bind (fun asc =>
                (headPy (fields.lookup "top_n")
                    (sortValuesBy asc aggregated)).bind (fun top =>
                  let result := top.map Prod.fst
                  if result.isEmpty then .ok noResultsMsg
                  else .ok ("Here are the results:\n" ++
                    joinSep "\n" (numberFrom 1
                      (result.map (fun k => pyTitle (cellStr k))))))))
          | some (.str "idxmax") =>
            (groupedSum df g a).bind (fun aggregated =>
              (seriesIdxmax aggregated).map (fun k =>
                "The result is: " ++ pyTitle (cellStr k)))
          | some _ => .error .caught
        else .error .caught
      | .null, _ => .error .uncaught
      | _, .null => .error .uncaught
      | .arr _, _ => .error .uncaught
      | .obj _, _ => .error .uncaught
      | _, .arr _ => .error .uncaught
      | _, .obj _ => .error .uncaught
      | _, _ => .error .caught
  | some _ => .error .uncaught

/-- `DataQueryEngine._execute_analytical_query`: the first handler catches
`JSONDecodeError`/`KeyError`/`ValueError` with the plan apology, the
second catches every remaining exception. -/
def execute_analytical_query (df : Table) (parsed : Option Json) : String :=
  match execAnalyticalCore df parsed with
  | .ok s => s
  | .error .caught => analyticalApology
  | .error .uncaught => unexpectedApology

/-! ## DataQueryEngine: top-level `query_data` -/

/-- Sub-routing and dispatch inside `query_data`: `routerResp` is the raw
sub-classifier output, `structParsed`/`analParsed` the parsed JSON of
whichever extraction chain the chosen branch would invoke. -/
def query_dispatch (df : Table) (routerResp : String)
    (structParsed analParsed : Option Json) : Except PyErr String :=
  if containsStr (pyStrip routerResp) "simple_filter" then
    execute_structured_query df structParsed
  else
    .ok (execute_analytical_query df analParsed)

/-- `DataQueryEngine.query_data`: the outer `except Exception` converts any
escaping exception into the generic apology, so the function always
returns a string. -/
def query_data (df : Table) (routerResp : String)
    (structParsed analParsed : Option Json) : String :=
  match query_dispatch df routerResp structParsed analParsed with
  | .ok s => s
  | .error _ => routerApology

/-! ## Table loading (`DataQueryEngine.__init__`) -/

/-- One achievement object of `students_achievements.json`.  The source
column `type` is a Lean keyword, hence the field name `atype`; `adate`
likewise stands for the source column `date`. -/
structure Achievement where
  achievement_id : String
  atype : String
  title : String
  description : String
  adate : String
  status : String
  approved_by : String
  credit_awarded : Int

/-- One student object of the nested source document. -/
structure Student where
  name : String
  email : String
  student_id : String
  department : String
  dob : String
  achievements : List Achievement

/-- `pd.json_normalize(..., 'achievements', ['name', 'email', 'student_id',
'department', 'dob'])`: one row per achievement carrying copies of the
parent identity fields. -/
def rowOfAchievement (s : Student) (a : Achievement) : Row :=
  [("achievement_id", .str a.achievement_id),
   ("type", .str a.atype),
   ("title", .str a.title),
   ("description", .str a.description),
   ("date", .str a.adate),
   ("status", .str a.status),
   ("approved_by", .str a.approved_by),
   ("credit_awarded", .int a.credit_awarded),
   ("name", .str s.name),
   ("email", .str s.email),
   ("student_id", .str s.student_id),
   ("department", .str s.department),
   ("dob", .str s.dob)]

/-- The five columns lower-cased at load time
(`data_query_engine.py` lines 111-115). -/
def sanitizedCols : List String :=
  ["name", "department", "type", "status", "approved_by"]

/-- `df[c] = df[c].str.lower()` applied to one row for the five columns. -/
def sanitizeRow (r : Row) : Row :=
  r.map (fun p =>
    if sanitizedCols.contains p.1 then
      (p.1, match p.2 with | .str s => .str (lowerStr s) | v => v)
    else p)

/-- The table built by `DataQueryEngine.__init__`: flatten, then lower-case
the five textual comparison columns. -/
def loadStore (students : List Student) : Table :=
  (students.flatMap (fun s => s.achievements.map (rowOfAchievement s))).map
    sanitizeRow

/-! ## Top-level intent routing (`application.get_response`) -/

/-- The three tools of the top-level router. -/
inductive Route where
  | portfolio_summary
  | general_query
  | general_conversation
deriving DecidableEq, Repr

/-- `get_response` routing (`application.py` lines 67-79): strip the raw
classifier output, then test substring containment in priority order
`portfolio_summary`, `general_query`, defaulting to
`general_conversation`. -/
def routeOf (resp : String) : Route :=
  let route := pyStrip resp
  if containsStr route "portfolio_summary" then .portfolio_summary
  else if containsStr route "general_query" then .general_query
  else .general_conversation

/-! ## RAG chain (`retriever.create_rag_chain`) and its caller -/

/-- The value a LangChain runnable hands back to the caller: either a bare
string (what `StrOutputParser` yields) or a string-keyed dict. -/
inductive ChainResult where
  | str (s : String)
  | dict (entries : List (String × String))

/-- The document list the synthesis prompt receives as `context`:
`create_rag_chain` pipes the rewritten query into the retriever and the
result straight into the final prompt (retriever.py lines 93-107).
`rewrite` and `retrieve` are the LLM / vector-store oracles. -/
def rag_context (rewrite : String → String)
    (retrieve : String → List String) (q : String) : List String :=
  retrieve (rewrite q)

/-- `rag_chain.invoke(q)`: the chain ends in `StrOutputParser()`, so the
caller receives a bare string — the synthesized answer text. -/
def rag_chain_invoke (rewrite : String → String)
    (retrieve : String → List String)
    (synth : List String → String → String) (q : String) : ChainResult :=
  .str (synth (rag_context rewrite retrieve q) q)

/-- `result_dict.get('answer', "Sorry, I couldn't generate a summary.")`
as executed by `get_response`: on a dict it is a lookup with default, on a
bare string it raises `AttributeError` (uncaught). -/
def result_answer : ChainResult → Except PyErr String
  | .dict d => .ok ((d.lookup "answer").getD "Sorry, I couldn't generate a summary.")
  | .str _ => .error .uncaught

/-- The `portfolio_summary` branch of `get_response` (`application.py`
lines 70-73): invoke the RAG chain and read its `answer` field; an
escaping exception is turned into the route handler's HTTP 500 response. -/
def get_response_portfolio (rewrite : String → String)
    (retrieve : String → List String)
    (synth : List String → String → String) (q : String) :
    Except PyErr String :=
  result_answer (rag_chain_invoke rewrite retrieve synth q)

/-- Whitespace-separated tokens of a question (for the spec's capitalized
token heuristic). -/
def splitWsAux : List Char → List Char → List String
  | [], acc => if acc.isEmpty then [] else [String.mk acc.reverse]
  | c :: t, acc =>
    if c.isWhitespace then
      if acc.isEmpty then splitWsAux t []
      else String.mk acc.reverse :: splitWsAux t []
    else splitWsAux t (c :: acc)

def splitWs (s : String) : List String :=
  splitWsAux s.data []

/-- A candidate proper name: a token of length > 2 whose first character is
upper-case. -/
def isCandidateName (tok : String) : Bool :=
  tok.data.length > 2 && (match tok.data with
    | [] => false
    | c :: _ => c.isUpper)

/-- Modelled from the spec: the optional rerank pass of the
PortfolioSynthesizer (spec §4.2 step 3), which is absent from
`retriever.create_rag_chain` in the source.  Extract capitalized tokens of
length > 2 from the question; if any exist keep only documents containing
one of them case-insensitively, preserving order, then truncate to `k`;
otherwise just truncate to `k`. -/
def rerankBySpec (question : String) (docs : List String) (k : Nat) :
    List String :=
  let names := (splitWs question).filter isCandidateName
  if names.isEmpty then docs.take k
  else
    (docs.filter (fun d =>
      names.any (fun n => containsStr (lowerStr d) (lowerStr n)))).take k

/-! ## Helper lemmas: lower-casing -/

theorem char_toNat_ofNat_valid (n : Nat) (h : n.isValidChar) :
    (Char.ofNat n).toNat = n := by
  unfold Char.ofNat
  rw [dif_pos h]
  rfl

/-- `Char.toLower` is idempotent. -/
theorem char_toLower_idem (c : Char) : c.toLower.toLower = c.toLower := by
  unfold Char.toLower
  by_cases h : c.toNat ≥ 65 ∧ c.toNat ≤ 90
  · rw [if_pos h]
    have hv : (c.toNat + 32).isValidChar := Or.inl (by omega)
    have ht : (Char.ofNat (c.toNat + 32)).toNat = c.toNat + 32 :=
      char_toNat_ofNat_valid _ hv
    rw [if_neg (by omega)]
  · rw [if_neg h, if_neg h]

/-- Python `s.lower()` is idempotent: a stored lower-cased value is a fixed
point of further lower-casing. -/
theorem lowerStr_idem (s : String) : lowerStr (lowerStr s) = lowerStr s := by
  simp only [lowerStr, List.map_map]
  have h : Char.toLower ∘ Char.toLower = Char.toLower := funext char_toLower_idem
  rw [h]

/-! ## Helper lemmas: the stable sort `sortBy` -/

theorem perm_insertBy (le : α → α → Bool) (a : α) (l : List α) :
    List.Perm (insertBy le a l) (a :: l) := by
  induction l with
  | nil => rfl
  | cons b t ih =>
    simp only [insertBy]
    by_cases h : le a b = true
    · rw [if_pos h]
    · rw [if_neg h]
      exact (ih.cons b).trans (List.Perm.swap a b t)

theorem mem_insertBy (le : α → α → Bool) (a x : α) (l : List α) :
    x ∈ insertBy le a l ↔ x = a ∨ x ∈ l := by
  rw [(perm_insertBy le a l).mem_iff]
  simp

theorem perm_sortBy (le : α → α → Bool) (l : List α) :
    List.Perm (sortBy le l) l := by
  induction l with
  | nil => rfl
  | cons a t ih =>
    exact (perm_insertBy le a (sortBy le t)).trans (ih.cons a)

theorem mem_sortBy (le : α → α → Bool) (x : α) (l : List α) :
    x ∈ sortBy le l ↔ x ∈ l :=
  (perm_sortBy le l).mem_iff

theorem nodup_sortBy (le : α → α → Bool) (l : List α) (h : l.Nodup) :
    (sortBy le l).Nodup :=
  (perm_sortBy le l).nodup_iff.mpr h

theorem pairwise_insertBy (le : α → α → Bool)
    (htot : ∀ x y, le x y = true ∨ le y x = true)
    (htrans : ∀ x y z, le x y = true → le y z = true → le x z = true)
    (a : α) (l : List α) (hl : l.Pairwise (fun x y => le x y = true)) :
    (insertBy le a l).Pairwise (fun x y => le x y = true) := by
  induction l with
  | nil => simp [insertBy]
  | cons b t ih =>
    rcases List.pairwise_cons.mp hl with ⟨hb, ht⟩
    simp only [insertBy]
    by_cases h : le a b = true
    · rw [if_pos h]
      refine List.pairwise_cons.mpr ⟨?_, hl⟩
      intro y hy
      rcases List.mem_cons.mp hy with rfl | hyt
      · exact h
      · exact htrans a b y h (hb y hyt)
    · rw [if_neg h]
      have hba : le b a = true := (htot a b).resolve_left h
      refine List.pairwise_cons.mpr ⟨?_, ih ht⟩
      intro y hy
      rcases (mem_insertBy le a y t).mp hy with rfl | hyt
      · exact hba
      · exact hb y hyt

/-- `sortBy` sorts w.r.t. any total transitive boolean comparator. -/
theorem pairwise_sortBy (le : α → α → Bool)
    (htot : ∀ x y, le x y = true ∨ le y x = true)
    (htrans : ∀ x y z, le x y = true → le y z = true → le x z = true)
    (l : List α) : (sortBy le l).Pairwise (fun x y => le x y = true) := by
  induction l with
  | nil => exact List.Pairwise.nil
  | cons a t ih => exact pairwise_insertBy le htot htrans a (sortBy le t) ih

/-! ## Helper lemmas: the string comparator `chLe` -/

theorem char_toNat_injective (a b : Char) (h : a.toNat = b.toNat) : a = b := by
  apply Char.eq_of_val_eq
  exact UInt32.ext h

theorem chLe_total (l1 l2 : List Char) :
    chLe l1 l2 = true ∨ chLe l2 l1 = true := by
  induction l1 generalizing l2 with
  | nil => left; rfl
  | cons a as ih =>
    cases l2 with
    | nil => right; rfl
    | cons b bs =>
      by_cases hab : a = b
      · subst hab
        simp only [chLe, beq_self_eq_true, if_true]
        exact ih bs
      · have h1 : (a == b) = false := beq_eq_false_iff_ne.mpr hab
        have h2 : (b == a) = false := beq_eq_false_iff_ne.mpr (Ne.symm hab)
        simp only [chLe, h1, h2, Bool.false_eq_true, if_false]
        have hne : a.toNat ≠ b.toNat := fun h => hab (char_toNat_injective a b h)
        rcases Nat.lt_or_ge a.toNat b.toNat with h | h
        · left; exact decide_eq_true h
        · right; exact decide_eq_true (Nat.lt_of_le_of_ne h (Ne.symm hne))

theorem chLe_trans (l1 l2 l3 : List Char)
    (h12 : chLe l1 l2 = true) (h23 : chLe l2 l3 = true) : chLe l1 l3 = true := by
  induction l1 generalizing l2 l3 with
  | nil => rfl
  | cons a as ih =>
    cases l2 with
    | nil => simp [chLe] at h12
    | cons b bs =>
      cases l3 with
      | nil => simp [chLe] at h23
      | cons c cs =>
        by_cases hab : a = b <;> by_cases hbc : b = c
        · subst hab; subst hbc
          simp only [chLe, beq_self_eq_true, if_true] at h12 h23 ⊢
          exact ih bs cs h12 h23
        · subst hab
          have h2 : (a == c) = false := beq_eq_false_iff_ne.mpr hbc
          simp only [chLe, beq_self_eq_true, if_true, h2, Bool.false_eq_true,
            if_false] at h23 ⊢
          exact h23
        · subst hbc
          have h1 : (a == b) = false := beq_eq_false_iff_ne.mpr hab
          simp only [chLe, h1, Bool.false_eq_true, if_false] at h12 ⊢
          exact h12
        · have h1 : (a == b) = false := beq_eq_false_iff_ne.mpr hab
          have h2 : (b == c) = false := beq_eq_false_iff_ne.mpr hbc
          simp only [chLe, h1, h2, Bool.false_eq_true, if_false,
            decide_eq_true_eq] at h12 h23
          have hac : a.toNat < c.toNat := Nat.lt_trans h12 h23
          have hne : a ≠ c := fun h => Nat.lt_irrefl _ (h ▸ hac)
          have h3 : (a == c) = false := beq_eq_false_iff_ne.mpr hne
          simp only [chLe, h3, Bool.false_eq_true, if_false, decide_eq_true_eq]
          exact hac

theorem strLeB_total (a b : String) : strLeB a b = true ∨ strLeB b a = true :=
  chLe_total a.data b.data

theorem strLeB_trans (a b c : String) (h1 : strLeB a b = true)
    (h2 : strLeB b c = true) : strLeB a c = true :=
  chLe_trans a.data b.data c.data h1 h2

/-! ## Helper lemmas: `pdUnique` -/

theorem mem_pdUniqueAux [BEq α] [LawfulBEq α] (l : List α) :
    ∀ (seen : List α) (x : α),
      x ∈ pdUniqueAux seen l ↔ x ∈ l ∧ x ∉ seen := by
  induction l with
  | nil => intro seen x; simp [pdUniqueAux]
  | cons a t ih =>
    intro seen x
    simp only [pdUniqueAux]
    by_cases h : seen.contains a
    · rw [if_pos h]
      have ha : a ∈ seen := by
        have := List.elem_iff.mp h
        exact this
      rw [ih seen x]
      simp only [List.mem_cons]
      constructor
      · rintro ⟨hx, hns⟩; exact ⟨Or.inr hx, hns⟩
      · rintro ⟨hx | hx, hns⟩
        · exact absurd (hx ▸ ha) hns
        · exact ⟨hx, hns⟩
    · rw [if_neg h]
      have ha : a ∉ seen := fun hc => h (List.elem_iff.mpr hc)
      simp only [List.mem_cons, ih (a :: seen) x, List.mem_cons]
      constructor
      · rintro (rfl | ⟨hx, hns⟩)
        · exact ⟨Or.inl rfl, ha⟩
        · exact ⟨Or.inr hx, fun hc => hns (Or.inr hc)⟩
      · rintro ⟨rfl | hx, hns⟩
        · exact Or.inl rfl
        · by_cases hxa : x = a
          · exact Or.inl hxa
          · exact Or.inr ⟨hx, fun hc => (hc.elim hxa hns : False)⟩

theorem mem_pdUnique [BEq α] [LawfulBEq α] (l : List α) (x : α) :
    x ∈ pdUnique l ↔ x ∈ l := by
  rw [pdUnique, mem_pdUniqueAux]
  simp

theorem nodup_pdUniqueAux [BEq α] [LawfulBEq α] (l : List α) :
    ∀ seen : List α, (pdUniqueAux seen l).Nodup := by
  induction l with
  | nil => intro seen; exact List.Pairwise.nil
  | cons a t ih =>
    intro seen
    simp only [pdUniqueAux]
    by_cases h : seen.contains a
    · rw [if_pos h]; exact ih seen
    · rw [if_neg h]
      refine List.nodup_cons.mpr ⟨?_, ih (a :: seen)⟩
      intro hc
      rcases (mem_pdUniqueAux t (a :: seen) a).mp hc with ⟨_, hns⟩
      exact hns (List.mem_cons_self a seen)

theorem nodup_pdUnique [BEq α] [LawfulBEq α] (l : List α) :
    (pdUnique l).Nodup :=
  nodup_pdUniqueAux l []

/-! ## Helper lemmas: homogeneous cell lists -/

theorem asStrs_of_all (l : List CellVal)
    (h : ∀ c ∈ l, ∃ s, c = CellVal.str s) :
    ∃ ss : List String, asStrs l = some ss ∧ l = ss.map CellVal.str := by
  induction l with
  | nil => exact ⟨[], rfl, rfl⟩
  | cons c t ih =>
    rcases h c (List.mem_cons_self c t) with ⟨s, rfl⟩
    rcases ih (fun c hc => h c (List.mem_cons_of_mem _ hc)) with ⟨ss, h1, h2⟩
    exact ⟨s :: ss, by simp [asStrs, h1], by simp [h2]⟩

theorem asInts_of_all (l : List CellVal)
    (h : ∀ c ∈ l, ∃ n, c = CellVal.int n) :
    ∃ ns : List Int, asInts l = some ns ∧ l = ns.map CellVal.int := by
  induction l with
  | nil => exact ⟨[], rfl, rfl⟩
  | cons c t ih =>
    rcases h c (List.mem_cons_self c t) with ⟨n, rfl⟩
    rcases ih (fun c hc => h c (List.mem_cons_of_mem _ hc)) with ⟨ns, h1, h2⟩
    exact ⟨n :: ns, by simp [asInts, h1], by simp [h2]⟩

theorem pySortCells_strings (l : List CellVal)
    (h : ∀ c ∈ l, ∃ s, c = CellVal.str s) :
    ∃ ss : List String, l = ss.map CellVal.str ∧
      pySortCells l = .ok ((sortBy strLeB ss).map CellVal.str) := by
  rcases asStrs_of_all l h with ⟨ss, h1, h2⟩
  exact ⟨ss, h2, by simp [pySortCells, h1]⟩

/-! ## Helper lemmas: the structured path -/

theorem resultTextOf_nil : resultTextOf [] = .ok noResultsMsg := rfl

/-- Characterization of the structured-path post-processing on an all-string
series: the output lists the distinct projected values, sorted ascending,
title-cased and numbered from 1. -/
theorem resultTextOf_strings (series : List CellVal)
    (h : ∀ c ∈ series, ∃ s, c = CellVal.str s) (hne : series ≠ []) :
    ∃ vs : List String,
      vs.Nodup ∧
      vs.Pairwise (fun a b => strLeB a b = true) ∧
      (∀ s, s ∈ vs ↔ CellVal.str s ∈ series) ∧
      resultTextOf series =
        .ok ("Here are the results:\n" ++
          joinSep "\n" (numberFrom 1 (vs.map pyTitle))) := by
  have huniq : ∀ c ∈ pdUnique series, ∃ s, c = CellVal.str s :=
    fun c hc => h c ((mem_pdUnique _ _).mp hc)
  rcases asStrs_of_all _ huniq with ⟨ss, hs1, hs2⟩
  have hne' : (pdUnique series).isEmpty = false := by
    cases hser : series with
    | nil => exact absurd hser hne
    | cons c t =>
      have hc : c ∈ pdUnique series := by
        rw [mem_pdUnique, hser]; exact List.mem_cons_self c t
      cases hu : pdUnique series with
      | nil => rw [hu] at hc; exact absurd hc (List.not_mem_nil c)
      | cons x xs => rfl
  refine ⟨sortBy strLeB ss, ?_, ?_, ?_, ?_⟩
  · have hmap : (ss.map CellVal.str).Nodup := hs2 ▸ nodup_pdUnique series
    exact nodup_sortBy _ _ (hmap.of_map _)
  · exact pairwise_sortBy strLeB strLeB_total strLeB_trans ss
  · intro s
    rw [mem_sortBy]
    have h1 : s ∈ ss ↔ CellVal.str s ∈ ss.map CellVal.str := by
      simp [List.mem_map]
    rw [h1, ← hs2, mem_pdUnique]
  · simp only [resultTextOf, hne', Bool.false_eq_true, if_false, hs1]

/-- `execStructuredCore` on a parsed object whose three fields are strings
naming valid columns: the engine lower-cases the filter value, selects the
rows whose cell in the filter column equals it, and projects the return
column into the post-processing step. -/
theorem execStructuredCore_filter (df : Table) (fields : List (String × Json))
    (cf v cr : String)
    (h1 : fields.lookup "column_to_filter" = some (.str cf))
    (h2 : fields.lookup "filter_value" = some (.str v))
    (h3 : fields.lookup "column_to_return" = some (.str cr))
    (hcf : hasCol df cf = true) (hcfne : cf ≠ "")
    (hcr : hasCol df cr = true) (hcrne : cr ≠ "") :
    execStructuredCore df (some (.obj fields)) =
      resultTextOf (colVals
        (df.filter (fun r => r.lookup cf == some (.str (lowerStr v)))) cr) := by
  have hcrE : cr.isEmpty = false := by
    rw [Bool.eq_false_iff]
    intro hc
    exact hcrne ((String.isEmpty_iff cr).mp hc)
  have hcfE : cf.isEmpty = false := by
    rw [Bool.eq_false_iff]
    intro hc
    exact hcfne ((String.isEmpty_iff cf).mp hc)
  simp only [execStructuredCore, h1, h2, h3, pyTruthy, pyNotNone, hcrE, hcfE,
    Bool.not_false, Bool.and_true, if_true, Bool.true_and, Bool.not_true,
    Bool.false_eq_true, if_false, projectCol, hcf, hcr]

/-- `execStructuredCore` when the filter condition fails (null/missing
`column_to_filter` or `filter_value`): the return column is projected over
all rows, unfiltered. -/
theorem execStructuredCore_unfiltered (df : Table)
    (fields : List (String × Json)) (cr : String)
    (hcond : pyTruthy (fields.lookup "column_to_filter") = false ∨
      pyNotNone (fields.lookup "filter_value") = false)
    (h3 : fields.lookup "column_to_return" = some (.str cr))
    (hcr : hasCol df cr = true) (hcrne : cr ≠ "") :
    execStructuredCore df (some (.obj fields)) =
      resultTextOf (colVals df cr) := by
  have hcrE : cr.isEmpty = false := by
    rw [Bool.eq_false_iff]
    intro hc
    exact hcrne ((String.isEmpty_iff cr).mp hc)
  have hc : (pyTruthy (fields.lookup "column_to_filter") &&
      pyNotNone (fields.lookup "filter_value")) = false := by
    rcases hcond with h | h <;> simp [h]
  have hpt : pyTruthy (fields.lookup "column_to_return") = true := by
    rw [h3]; simp [pyTruthy, hcrE]
  simp only [execStructuredCore, hpt, Bool.not_true, Bool.false_eq_true,
    if_false, hc, projectCol, h3, hcr, if_true]
  simp [pyTruthy, hcrE]

/-- `execStructuredCore` when `column_to_return` is missing or null: the
`ValueError` branch (caught). -/
theorem execStructuredCore_missing_return (df : Table)
    (fields : List (String × Json))
    (h3 : fields.lookup "column_to_return" = none ∨
      fields.lookup "column_to_return" = some .null) :
    execStructuredCore df (some (.obj fields)) = .error .caught := by
  have hT : pyTruthy (fields.lookup "column_to_return") = false := by
    rcases h3 with h | h <;> rw [h] <;> rfl
  simp only [execStructuredCore, hT, Bool.not_false, if_true]

theorem execute_structured_query_ok (df : Table) (p : Option Json) (s : String)
    (h : execStructuredCore df p = .ok s) :
    execute_structured_query df p = .ok s := by
  simp [execute_structured_query, h]

/-! ## Claim theorems -/

/-- C1: on the synthetic two-row table with extraction
`{column_to_filter: "type", filter_value: "workshop", column_to_return:
"name"}` the simple_filter path outputs exactly
`"Here are the results:\n1. Alice"`; in general the path deduplicates the
projected values, sorts them ascending, title-cases each, numbers them
from 1, and yields the fixed no-results message (never an empty list)
when no row survives the filter. -/
theorem claim_C1_simple_filter_postprocessing :
    (execute_structured_query
        [[("type", CellVal.str "workshop"), ("name", CellVal.str "alice")],
         [("type", CellVal.str "seminar"), ("name", CellVal.str "bob")]]
        (some (.obj [("column_to_filter", .str "type"),
                     ("filter_value", .str "workshop"),
                     ("column_to_return", .str "name")]))
      = .ok "Here are the results:\n1. Alice") ∧
    (∀ (df : Table) (fields : List (String × Json)) (cf v cr : String),
      fields.lookup "column_to_filter" = some (.str cf) →
      fields.lookup "filter_value" = some (.str v) →
      fields.lookup "column_to_return" = some (.str cr) →
      hasCol df cf = true → cf ≠ "" → hasCol df cr = true → cr ≠ "" →
      (∀ c ∈ colVals df cr, ∃ s, c = CellVal.str s) →
      ((colVals (df.filter
          (fun r => r.lookup cf == some (CellVal.str (lowerStr v)))) cr = [] →
        execute_structured_query df (some (.obj fields)) = .ok noResultsMsg) ∧
       (colVals (df.filter
          (fun r => r.lookup cf == some (CellVal.str (lowerStr v)))) cr ≠ [] →
        ∃ vs : List String,
          vs.Nodup ∧
          vs.Pairwise (fun a b => strLeB a b = true) ∧
          (∀ s, s ∈ vs ↔ CellVal.str s ∈ colVals (df.filter
            (fun r => r.lookup cf == some (CellVal.str (lowerStr v)))) cr) ∧
          execute_structured_query df (some (.obj fields)) =
            .ok ("Here are the results:\n" ++
              joinSep "\n" (numberFrom 1 (vs.map pyTitle)))))) := by
  constructor
  · rfl
  · intro df fields cf v cr h1 h2 h3 hcf hcfne hcr hcrne hstr
    have hcore := execStructuredCore_filter df fields cf v cr h1 h2 h3
      hcf hcfne hcr hcrne
    have hsub : ∀ c ∈ colVals (df.filter
        (fun r => r.lookup cf == some (CellVal.str (lowerStr v)))) cr,
        c ∈ colVals df cr := by
      intro c hc
      rcases List.mem_filterMap.mp hc with ⟨r, hr, hrr⟩
      exact List.mem_filterMap.mpr ⟨r, List.mem_of_mem_filter hr, hrr⟩
    constructor
    · intro hnil
      rw [hnil] at hcore
      exact execute_structured_query_ok df _ _
        (hcore.trans resultTextOf_nil)
    · intro hne
      rcases resultTextOf_strings _ (fun c hc => hstr c (hsub c hc)) hne with
        ⟨vs, hnd, hpw, hmem, heq⟩
      exact ⟨vs, hnd, hpw, hmem,
        execute_structured_query_ok df _ _ (hcore.trans heq)⟩

/-- C2: in the simple_filter path, when `column_to_filter` names a valid
column and `filter_value` is a (string) value, the engine lower-cases the
filter value and selects exactly the rows whose cell in that column equals
it, projecting `column_to_return`; when either field is null or missing it
projects `column_to_return` over all rows; and a missing or null
`column_to_return` yields the handled-error apology instead of a result. -/
theorem claim_C2_simple_filter_execution :
    (∀ (df : Table) (fields : List (String × Json)) (cf v cr : String),
      fields.lookup "column_to_filter" = some (.str cf) →
      fields.lookup "filter_value" = some (.str v) →
      fields.lookup "column_to_return" = some (.str cr) →
      hasCol df cf = true → cf ≠ "" → hasCol df cr = true → cr ≠ "" →
      execStructuredCore df (some (.obj fields)) =
        resultTextOf (colVals (df.filter
          (fun r => r.lookup cf == some (CellVal.str (lowerStr v)))) cr)) ∧
    (∀ (df : Table) (fields : List (String × Json)) (cr : String),
      (fields.lookup "column_to_filter" = none ∨
       fields.lookup "column_to_filter" = some .null ∨
       fields.lookup "filter_value" = none ∨
       fields.lookup "filter_value" = some .null) →
      fields.lookup "column_to_return" = some (.str cr) →
      hasCol df cr = true → cr ≠ "" →
      execStructuredCore df (some (.obj fields)) =
        resultTextOf (colVals df cr)) ∧
    (∀ (df : Table) (fields : List (String × Json)),
      (fields.lookup "column_to_return" = none ∨
       fields.lookup "column_to_return" = some .null) →
      execute_structured_query df (some (.obj fields)) =
        .ok structuredApology) := by
  refine ⟨?_, ?_, ?_⟩
  · intro df fields cf v cr h1 h2 h3 hcf hcfne hcr hcrne
    exact execStructuredCore_filter df fields cf v cr h1 h2 h3
      hcf hcfne hcr hcrne
  · intro df fields cr hnull h3 hcr hcrne
    refine execStructuredCore_unfiltered df fields cr ?_ h3 hcr hcrne
    rcases hnull with h | h | h | h
    · left; rw [h]; rfl
    · left; rw [h]; rfl
    · right; rw [h]; rfl
    · right; rw [h]; rfl
  · intro df fields h3
    have := execStructuredCore_missing_return df fields h3
    simp [execute_structured_query, this]

/-- C5: when the extraction text fails to parse as JSON, neither engine
path lets the exception escape: each returns its fixed apology string, and
through `query_data` the caller always receives one of the two apologies. -/
theorem claim_C5_malformed_json_apologies :
    ∀ df : Table,
      execute_structured_query df none = .ok structuredApology ∧
      execute_analytical_query df none = analyticalApology ∧
      ∀ routerResp : String,
        query_data df routerResp none none = structuredApology ∨
        query_data df routerResp none none = analyticalApology := by
  intro df
  refine ⟨rfl, rfl, ?_⟩
  intro routerResp
  by_cases h : containsStr (pyStrip routerResp) "simple_filter" = true
  · left
    simp only [query_data, query_dispatch, h, if_true]
    rfl
  · right
    simp only [query_data, query_dispatch, h, Bool.false_eq_true, if_false]
    rfl

/-- C6: top-level routing tests substring containment on the stripped
classifier output in priority order `portfolio_summary`, `general_query`,
default `general_conversation`; a response containing both markers routes
to `portfolio_summary` and one containing neither routes to
`general_conversation`. -/
theorem claim_C6_router_priority :
    (∀ resp : String,
      (containsStr (pyStrip resp) "portfolio_summary" = true →
        routeOf resp = .portfolio_summary) ∧
      (containsStr (pyStrip resp) "portfolio_summary" = false →
        containsStr (pyStrip resp) "general_query" = true →
        routeOf resp = .general_query) ∧
      (containsStr (pyStrip resp) "portfolio_summary" = false →
        containsStr (pyStrip resp) "general_query" = false →
        routeOf resp = .general_conversation)) ∧
    routeOf "portfolio_summary general_query" = .portfolio_summary ∧
    routeOf "that is chit chat" = .general_conversation := by
  refine ⟨?_, by decide, by decide⟩
  intro resp
  refine ⟨?_, ?_, ?_⟩
  · intro h; simp [routeOf, h]
  · intro h1 h2; simp [routeOf, h1, h2]
  · intro h1 h2; simp [routeOf, h1, h2]

/-- C10: a simple_filter extraction that is valid JSON with a truthy
`column_to_filter` naming a real column and a non-null `column_to_return`
but a non-string `filter_value` (e.g. a JSON number) escapes the inner
handler (it produces neither fixed apology) and is converted by the outer
`query_data` handler into the generic error string; `query_data` itself
never raises: it always returns either the dispatched string or the
generic message. -/
theorem claim_C10_nonstring_filter_value_escapes :
    (∀ (df : Table) (fields : List (String × Json)) (cf cr : String)
        (vf : Json) (ap : Option Json),
      fields.lookup "column_to_filter" = some (.str cf) →
      hasCol df cf = true → cf ≠ "" →
      fields.lookup "filter_value" = some vf →
      ((∃ k, vf = .num k) ∨ (∃ b, vf = .bool b) ∨
       (∃ l, vf = .arr l) ∨ (∃ fs, vf = .obj fs)) →
      fields.lookup "column_to_return" = some (.str cr) → cr ≠ "" →
      execute_structured_query df (some (.obj fields)) = .error .uncaught ∧
      query_data df "simple_filter" (some (.obj fields)) ap = routerApology) ∧
    (∀ (df : Table) (resp : String) (sp ap : Option Json),
      query_data df resp sp ap = routerApology ∨
      ∃ s, query_dispatch df resp sp ap = .ok s ∧
        query_data df resp sp ap = s) := by
  constructor
  · intro df fields cf cr vf ap h1 hcf hcfne h2 hvf h3 hcrne
    have hcrE : cr.isEmpty = false := by
      rw [Bool.eq_false_iff]
      intro hc
      exact hcrne ((String.isEmpty_iff cr).mp hc)
    have hcfE : cf.isEmpty = false := by
      rw [Bool.eq_false_iff]
      intro hc
      exact hcfne ((String.isEmpty_iff cf).mp hc)
    have hnn : pyNotNone (some vf) = true := by
      rcases hvf with ⟨k, rfl⟩ | ⟨b, rfl⟩ | ⟨l, rfl⟩ | ⟨fs, rfl⟩ <;> rfl
    have hcore : execStructuredCore df (some (.obj fields)) =
        .error .uncaught := by
      simp only [execStructuredCore, h1, h2, h3, pyTruthy, pyNotNone, hcrE,
        hcfE, Bool.not_false, if_true, Bool.and_true, Bool.false_eq_true,
        if_false, hcf]
      rcases hvf with ⟨k, rfl⟩ | ⟨b, rfl⟩ | ⟨l, rfl⟩ | ⟨fs, rfl⟩ <;> simp
    have hexec : execute_structured_query df (some (.obj fields)) =
        .error .uncaught := by
      simp [execute_structured_query, hcore]
    refine ⟨hexec, ?_⟩
    have hroute : containsStr (pyStrip "simple_filter") "simple_filter"
        = true := by decide
    simp [query_data, query_dispatch, hroute, hexec]
  · intro df resp sp ap
    cases h : query_dispatch df resp sp ap with
    | error e => left; simp [query_data, h]
    | ok s => right; exact ⟨s, rfl, by simp [query_data, h]⟩

/-! ## Helper lemmas: the analytical path -/

theorem groupKeys_spec (df : Table) (g : String)
    (hkeys : ∀ c ∈ colVals df g, ∃ s, c = CellVal.str s) :
    ∃ keys : List CellVal, groupKeysSorted df g = .ok keys ∧
      keys.Nodup ∧
      (∀ k, k ∈ keys ↔ k ∈ colVals df g) ∧
      (∀ k ∈ keys, ∃ s, k = CellVal.str s) := by
  have huniq : ∀ c ∈ pdUnique (colVals df g), ∃ s, c = CellVal.str s :=
    fun c hc => hkeys c ((mem_pdUnique _ _).mp hc)
  rcases pySortCells_strings _ huniq with ⟨ss, h1, h2⟩
  refine ⟨(sortBy strLeB ss).map CellVal.str, ?_, ?_, ?_, ?_⟩
  · simp [groupKeysSorted, h2]
  · have hinj : Function.Injective CellVal.str := fun a b h => by
      cases h; rfl
    have hmap : (ss.map CellVal.str).Nodup := h1 ▸ nodup_pdUnique _
    exact (nodup_sortBy _ _ (hmap.of_map _)).map hinj
  · intro k
    have h4 : k ∈ (sortBy strLeB ss).map CellVal.str ↔
        k ∈ ss.map CellVal.str := by
      simp only [List.mem_map]
      constructor
      · rintro ⟨s, hs, rfl⟩; exact ⟨s, (mem_sortBy _ _ _).mp hs, rfl⟩
      · rintro ⟨s, hs, rfl⟩; exact ⟨s, (mem_sortBy _ _ _).mpr hs, rfl⟩
    rw [h4, ← h1, mem_pdUnique]
  · intro k hk
    rcases List.mem_map.mp hk with ⟨s, _, rfl⟩
    exact ⟨s, rfl⟩

theorem sorted_pairs_spec (keys : List CellVal) (f : CellVal → Int)
    (asc : Bool) (hn : keys.Nodup) :
    ((sortValuesBy asc (keys.map (fun k => (k, f k)))).map Prod.fst).Nodup ∧
    (∀ k n, (k, n) ∈ sortValuesBy asc (keys.map (fun k => (k, f k))) ↔
      k ∈ keys ∧ n = f k) ∧
    (sortValuesBy asc (keys.map (fun k => (k, f k)))).Pairwise
      (fun p q => if asc = true then p.2 ≤ q.2 else q.2 ≤ p.2) := by
  have hperm : List.Perm (sortValuesBy asc (keys.map (fun k => (k, f k))))
      (keys.map (fun k => (k, f k))) := perm_sortBy _ _
  refine ⟨?_, ?_, ?_⟩
  · have h1 : List.Perm
        ((sortValuesBy asc (keys.map (fun k => (k, f k)))).map Prod.fst)
        ((keys.map (fun k => (k, f k))).map Prod.fst) := hperm.map _
    have h2 : (keys.map (fun k => (k, f k))).map Prod.fst = keys := by
      rw [List.map_map]
      exact List.map_id keys
    rw [h1.nodup_iff, h2]
    exact hn
  · intro k n
    rw [hperm.mem_iff, List.mem_map]
    constructor
    · rintro ⟨k', hk', heq⟩
      injection heq with h1 h2
      subst h1
      subst h2
      exact ⟨hk', rfl⟩
    · rintro ⟨hk, rfl⟩
      exact ⟨k, hk, rfl⟩
  · have := pairwise_sortBy
      (fun p q : CellVal × Int =>
        if asc then decide (p.2 ≤ q.2) else decide (q.2 ≤ p.2))
      (by
        intro x y
        cases asc <;> simp only [if_true, if_false, Bool.false_eq_true]
        · rcases Int.le_total y.2 x.2 with h | h
          · left; exact decide_eq_true h
          · right; exact decide_eq_true h
        · rcases Int.le_total x.2 y.2 with h | h
          · left; exact decide_eq_true h
          · right; exact decide_eq_true h)
      (by
        intro x y z hxy hyz
        cases asc <;>
          simp only [if_true, if_false, Bool.false_eq_true,
            decide_eq_true_eq] at hxy hyz ⊢
        · exact Int.le_trans hyz hxy
        · exact Int.le_trans hxy hyz)
      (keys.map (fun k => (k, f k)))
    refine this.imp ?_
    intro p q h
    cases asc <;> simp only [if_true, if_false, Bool.false_eq_true,
      decide_eq_true_eq] at h ⊢ <;> exact h

theorem groupedSum_eq (df : Table) (g a : String)
    (hkeys : ∀ c ∈ colVals df g, ∃ s, c = CellVal.str s)
    (hints : ∀ c ∈ colVals df a, ∃ n, c = CellVal.int n) :
    ∃ keys : List CellVal, groupKeysSorted df g = .ok keys ∧
      keys.Nodup ∧
      (∀ k, k ∈ keys ↔ k ∈ colVals df g) ∧
      (∀ k ∈ keys, ∃ s, k = CellVal.str s) ∧
      groupedSum df g a = .ok (keys.map (fun k => (k, sumFor df g a k))) := by
  rcases groupKeys_spec df g hkeys with ⟨keys, h1, h2, h3, h4⟩
  rcases asInts_of_all _ hints with ⟨ns, h5, _⟩
  exact ⟨keys, h1, h2, h3, h4, by simp [groupedSum, h1, h5]⟩

theorem groupedSize_eq (df : Table) (g : String)
    (hkeys : ∀ c ∈ colVals df g, ∃ s, c = CellVal.str s) :
    ∃ keys : List CellVal, groupKeysSorted df g = .ok keys ∧
      keys.Nodup ∧
      (∀ k, k ∈ keys ↔ k ∈ colVals df g) ∧
      (∀ k ∈ keys, ∃ s, k = CellVal.str s) ∧
      groupedSize df g = .ok (keys.map (fun k => (k, countFor df g k))) := by
  rcases groupKeys_spec df g hkeys with ⟨keys, h1, h2, h3, h4⟩
  exact ⟨keys, h1, h2, h3, h4, by simp [groupedSize, h1]⟩

theorem idxmaxAux_spec :
    ∀ (l : List (CellVal × Int)) (best : CellVal × Int),
      ∃ p : CellVal × Int, (p = best ∨ p ∈ l) ∧ idxmaxAux l best = p.1 ∧
        best.2 ≤ p.2 ∧ ∀ q ∈ l, q.2 ≤ p.2 := by
  intro l
  induction l with
  | nil => exact fun best => ⟨best, Or.inl rfl, rfl, Int.le_refl _, by simp⟩
  | cons x t ih =>
    intro best
    simp only [idxmaxAux]
    by_cases h : best.2 < x.2
    · rw [if_pos h]
      rcases ih x with ⟨p, hp, heq, hle, hall⟩
      refine ⟨p, ?_, heq, Int.le_trans (Int.le_of_lt h) hle, ?_⟩
      · rcases hp with rfl | hp
        · exact Or.inr (List.mem_cons_self _ _)
        · exact Or.inr (List.mem_cons_of_mem _ hp)
      · intro q hq
        rcases List.mem_cons.mp hq with rfl | hq
        · exact hle
        · exact hall q hq
    · rw [if_neg h]
      rcases ih best with ⟨p, hp, heq, hle, hall⟩
      refine ⟨p, ?_, heq, hle, ?_⟩
      · rcases hp with rfl | hp
        · exact Or.inl rfl
        · exact Or.inr (List.mem_cons_of_mem x hp)
      · intro q hq
        rcases List.mem_cons.mp hq with rfl | hq
        · exact Int.le_trans (Int.not_lt.mp h) hle
        · exact hall q hq

theorem seriesIdxmax_spec (l : List (CellVal × Int)) (hne : l ≠ []) :
    ∃ p ∈ l, seriesIdxmax l = .ok p.1 ∧ ∀ q ∈ l, q.2 ≤ p.2 := by
  cases l with
  | nil => exact absurd rfl hne
  | cons x t =>
    rcases idxmaxAux_spec t x with ⟨p, hp, heq, hle, hall⟩
    refine ⟨p, ?_, by simp [seriesIdxmax, heq], ?_⟩
    · rcases hp with rfl | hp
      · exact List.mem_cons_self _ _
      · exact List.mem_cons_of_mem _ hp
    · intro q hq
      rcases List.mem_cons.mp hq with rfl | hq
      · exact hle
      · exact hall q hq

theorem execAnalyticalCore_sum (df : Table) (fields : List (String × Json))
    (g a : String)
    (h1 : fields.lookup "groupby_col" = some (.str g))
    (h2 : fields.lookup "agg_col" = some (.str a))
    (h3 : fields.lookup "agg_func" = some (.str "sum"))
    (hg : hasCol df g = true) (ha : hasCol df a = true) :
    execAnalyticalCore df (some (.obj fields)) =
      (groupedSum df g a).bind (fun aggregated =>
        (ascendingOf (fields.lookup "sort_ascending")).bind (fun asc =>
          (headPy (fields.lookup "top_n")
              (sortValuesBy asc aggregated)).bind (fun top =>
            if (top.map Prod.fst).isEmpty then .ok noResultsMsg
            else .ok ("Here are the results:\n" ++
              joinSep "\n" (numberFrom 1
                ((top.map Prod.fst).map (fun k => pyTitle (cellStr k)))))))) := by
  simp only [execAnalyticalCore, h1, h2, h3, hg, ha, Bool.and_self, if_true]

theorem execAnalyticalCore_count (df : Table) (fields : List (String × Json))
    (g a : String)
    (h1 : fields.lookup "groupby_col" = some (.str g))
    (h2 : fields.lookup "agg_col" = some (.str a))
    (h3 : fields.lookup "agg_func" = some (.str "count"))
    (hg : hasCol df g = true) (ha : hasCol df a = true) :
    execAnalyticalCore df (some (.obj fields)) =
      (groupedSize df g).bind (fun aggregated =>
        (ascendingOf (fields.lookup "sort_ascending")).bind (fun asc =>
          (headPy (fields.lookup "top_n")
              (sortValuesBy asc aggregated)).bind (fun top =>
            if (top.map Prod.fst).isEmpty then .ok noResultsMsg
            else .ok ("Here are the results:\n" ++
              joinSep "\n" (numberFrom 1
                ((top.map Prod.fst).map (fun k => pyTitle (cellStr k)))))))) := by
  simp only [execAnalyticalCore, h1, h2, h3, hg, ha, Bool.and_self, if_true]

theorem execAnalyticalCore_idxmax (df : Table) (fields : List (String × Json))
    (g a : String)
    (h1 : fields.lookup "groupby_col" = some (.str g))
    (h2 : fields.lookup "agg_col" = some (.str a))
    (h3 : fields.lookup "agg_func" = some (.str "idxmax"))
    (hg : hasCol df g = true) (ha : hasCol df a = true) :
    execAnalyticalCore df (some (.obj fields)) =
      (groupedSum df g a).bind (fun aggregated =>
        (seriesIdxmax aggregated).map (fun k =>
          "The result is: " ++ pyTitle (cellStr k))) := by
  simp only [execAnalyticalCore, h1, h2, h3, hg, ha, Bool.and_self, if_true]

theorem execute_analytical_query_ok (df : Table) (p : Option Json) (s : String)
    (h : execAnalyticalCore df p = .ok s) :
    execute_analytical_query df p = s := by
  simp [execute_analytical_query, h]

theorem isEmpty_map (f : α → β) (l : List α) :
    (l.map f).isEmpty = l.isEmpty := by
  cases l <;> rfl

theorem map_fst_map_title (l : List (CellVal × Int)) :
    (l.map Prod.fst).map (fun k => pyTitle (cellStr k)) =
      l.map (fun p => pyTitle (cellStr p.1)) := by
  rw [List.map_map]
  rfl

/-- C3: for an analytical plan with `agg_func = "idxmax"` (over a valid
group column with string keys and an integer aggregation column, on a
table with at least one row), the engine groups by `groupby_col`, sums
`agg_col` per group, and answers with the single prose sentence
`"The result is: <Key>"` for a title-cased key of maximal sum.  The
`sort_ascending` and `top_n` fields of the plan are not constrained by any
hypothesis: the branch is independent of the sort/top-N/list formatting
path. -/
theorem claim_C3_idxmax_prose_sentence :
    ∀ (df : Table) (fields : List (String × Json)) (g a : String),
      fields.lookup "groupby_col" = some (.str g) →
      fields.lookup "agg_col" = some (.str a) →
      fields.lookup "agg_func" = some (.str "idxmax") →
      hasCol df g = true → hasCol df a = true →
      (∀ c ∈ colVals df g, ∃ s, c = CellVal.str s) →
      (∀ c ∈ colVals df a, ∃ n, c = CellVal.int n) →
      colVals df g ≠ [] →
      ∃ s : String, CellVal.str s ∈ colVals df g ∧
        (∀ k ∈ colVals df g, sumFor df g a k ≤ sumFor df g a (CellVal.str s)) ∧
        execute_analytical_query df (some (.obj fields)) =
          "The result is: " ++ pyTitle s := by
  intro df fields g a h1 h2 h3 hg ha hkeys hints hne
  rcases groupedSum_eq df g a hkeys hints with ⟨keys, hks, hnd, hmem, hstr, hgs⟩
  have hkne : keys.map (fun k => (k, sumFor df g a k)) ≠ [] := by
    cases hcv : colVals df g with
    | nil => exact absurd hcv hne
    | cons c t =>
      have hc : c ∈ keys := (hmem c).mpr (by rw [hcv]; exact List.mem_cons_self _ _)
      cases hk : keys with
      | nil => rw [hk] at hc; exact absurd hc (List.not_mem_nil c)
      | cons x xs => simp
  rcases seriesIdxmax_spec _ hkne with ⟨p, hp, hidx, hmax⟩
  rcases List.mem_map.mp hp with ⟨k0, hk0, rfl⟩
  rcases hstr k0 hk0 with ⟨s, rfl⟩
  refine ⟨s, (hmem _).mp hk0, ?_, ?_⟩
  · intro k hk
    have : (k, sumFor df g a k) ∈ keys.map (fun k => (k, sumFor df g a k)) :=
      List.mem_map.mpr ⟨k, (hmem k).mpr hk, rfl⟩
    exact hmax _ this
  · have hcore := execAnalyticalCore_idxmax df fields g a h1 h2 h3 hg ha
    rw [hgs] at hcore
    simp only [Except.bind, hidx, Except.map] at hcore
    exact execute_analytical_query_ok df _ _ hcore

/-- C4: for analytical plans with `agg_func` `"sum"` or `"count"` (valid
group column with string keys; for sum an integer aggregation column), the
engine aggregates per group (`sum` sums `agg_col`, `count` counts rows
ignoring the aggregation column's values), sorts the grouped result by
value honouring `sort_ascending` (default false = descending when the key
is absent), takes the first `top_n` keys (default 10 when absent), and
formats them as a 1-indexed title-cased list, with the fixed no-results
message for an empty result; any other `agg_func` value yields the handled
plan apology. -/
theorem claim_C4_sum_count_aggregation :
    (∀ (df : Table) (fields : List (String × Json)) (g a : String)
        (asc : Bool) (tn : Int),
      fields.lookup "groupby_col" = some (.str g) →
      fields.lookup "agg_col" = some (.str a) →
      fields.lookup "agg_func" = some (.str "sum") →
      hasCol df g = true → hasCol df a = true →
      (∀ c ∈ colVals df g, ∃ s, c = CellVal.str s) →
      (∀ c ∈ colVals df a, ∃ n, c = CellVal.int n) →
      ((fields.lookup "sort_ascending" = none ∧ asc = false) ∨
        fields.lookup "sort_ascending" = some (.bool asc)) →
      ((fields.lookup "top_n" = none ∧ tn = 10) ∨
        (fields.lookup "top_n" = some (.num tn) ∧ 0 ≤ tn)) →
      ∃ ps : List (CellVal × Int),
        (ps.map Prod.fst).Nodup ∧
        (∀ k n, (k, n) ∈ ps ↔ k ∈ colVals df g ∧ n = sumFor df g a k) ∧
        ps.Pairwise (fun p q => if asc = true then p.2 ≤ q.2 else q.2 ≤ p.2) ∧
        execute_analytical_query df (some (.obj fields)) =
          (if (ps.take tn.toNat).isEmpty then noResultsMsg
           else "Here are the results:\n" ++ joinSep "\n"
             (numberFrom 1 ((ps.take tn.toNat).map
               (fun p => pyTitle (cellStr p.1)))))) ∧
    (∀ (df : Table) (fields : List (String × Json)) (g a : String)
        (asc : Bool) (tn : Int),
      fields.lookup "groupby_col" = some (.str g) →
      fields.lookup "agg_col" = some (.str a) →
      fields.lookup "agg_func" = some (.str "count") →
      hasCol df g = true → hasCol df a = true →
      (∀ c ∈ colVals df g, ∃ s, c = CellVal.str s) →
      ((fields.lookup "sort_ascending" = none ∧ asc = false) ∨
        fields.lookup "sort_ascending" = some (.bool asc)) →
      ((fields.lookup "top_n" = none ∧ tn = 10) ∨
        (fields.lookup "top_n" = some (.num tn) ∧ 0 ≤ tn)) →
      ∃ ps : List (CellVal × Int),
        (ps.map Prod.fst).Nodup ∧
        (∀ k n, (k, n) ∈ ps ↔ k ∈ colVals df g ∧ n = countFor df g k) ∧
        ps.Pairwise (fun p q => if asc = true then p.2 ≤ q.2 else q.2 ≤ p.2) ∧
        execute_analytical_query df (some (.obj fields)) =
          (if (ps.take tn.toNat).isEmpty then noResultsMsg
           else "Here are the results:\n" ++ joinSep "\n"
             (numberFrom 1 ((ps.take tn.toNat).map
               (fun p => pyTitle (cellStr p.1)))))) ∧
    (∀ (df : Table) (fields : List (String × Json)) (g a : String)
        (f : Json),
      fields.lookup "groupby_col" = some (.str g) →
      fields.lookup "agg_col" = some (.str a) →
      hasCol df g = true → hasCol df a = true →
      fields.lookup "agg_func" = some f →
      (∀ s, f = Json.str s → s ≠ "sum" ∧ s ≠ "count" ∧ s ≠ "idxmax") →
      execute_analytical_query df (some (.obj fields)) =
        analyticalApology) := by
  refine ⟨?_, ?_, ?_⟩
  · intro df fields g a asc tn h1 h2 h3 hg ha hkeys hints hasc htop
    rcases groupedSum_eq df g a hkeys hints with ⟨keys, hks, hnd, hmem, hstr, hgs⟩
    rcases sorted_pairs_spec keys (sumFor df g a) asc hnd with ⟨hpnd, hpmem, hppw⟩
    refine ⟨sortValuesBy asc (keys.map (fun k => (k, sumFor df g a k))),
      hpnd, ?_, hppw, ?_⟩
    · intro k n
      rw [hpmem k n, hmem k]
    · have hcore := execAnalyticalCore_sum df fields g a h1 h2 h3 hg ha
      rw [hgs] at hcore
      have hascE : ascendingOf (fields.lookup "sort_ascending") = .ok asc := by
        rcases hasc with ⟨h, rfl⟩ | h <;> simp [ascendingOf, h]
      have htopE : headPy (fields.lookup "top_n")
          (sortValuesBy asc (keys.map (fun k => (k, sumFor df g a k)))) =
          .ok ((sortValuesBy asc
            (keys.map (fun k => (k, sumFor df g a k)))).take tn.toNat) := by
        rcases htop with ⟨h, rfl⟩ | ⟨h, hpos⟩
        · simp [headPy, h]
        · have : ¬ tn < 0 := by omega
          simp [headPy, h, this]
      rw [hascE] at hcore
      simp only [Except.bind] at hcore
      rw [htopE] at hcore
      simp only [Except.bind] at hcore
      rw [isEmpty_map, map_fst_map_title, ← apply_ite Except.ok] at hcore
      exact execute_analytical_query_ok df _ _ hcore
  · intro df fields g a asc tn h1 h2 h3 hg ha hkeys hasc htop
    rcases groupedSize_eq df g hkeys with ⟨keys, hks, hnd, hmem, hstr, hgs⟩
    rcases sorted_pairs_spec keys (countFor df g) asc hnd with ⟨hpnd, hpmem, hppw⟩
    refine ⟨sortValuesBy asc (keys.map (fun k => (k, countFor df g k))),
      hpnd, ?_, hppw, ?_⟩
    · intro k n
      rw [hpmem k n, hmem k]
    · have hcore := execAnalyticalCore_count df fields g a h1 h2 h3 hg ha
      rw [hgs] at hcore
      have hascE : ascendingOf (fields.lookup "sort_ascending") = .ok asc := by
        rcases hasc with ⟨h, rfl⟩ | h <;> simp [ascendingOf, h]
      have htopE : headPy (fields.lookup "top_n")
          (sortValuesBy asc (keys.map (fun k => (k, countFor df g k)))) =
          .ok ((sortValuesBy asc
            (keys.map (fun k => (k, countFor df g k)))).take tn.toNat) := by
        rcases htop with ⟨h, rfl⟩ | ⟨h, hpos⟩
        · simp [headPy, h]
        · have : ¬ tn < 0 := by omega
          simp [headPy, h, this]
      rw [hascE] at hcore
      simp only [Except.bind] at hcore
      rw [htopE] at hcore
      simp only [Except.bind] at hcore
      rw [isEmpty_map, map_fst_map_title, ← apply_ite Except.ok] at hcore
      exact execute_analytical_query_ok df _ _ hcore
  · intro df fields g a f h1 h2 hg ha hfunc hf
    have hcore : execAnalyticalCore df (some (.obj fields)) =
        .error .caught := by
      simp only [execAnalyticalCore, h1, h2, hfunc, hg, ha, Bool.and_self,
        if_true]
      cases f with
      | str s =>
        rcases hf s rfl with ⟨hs1, hs2, hs3⟩
        split
        all_goals try rfl
        · rename_i heq
          injection heq with h
          injection h with h
          exact absurd h hs1
        · rename_i heq
          injection heq with h
          injection h with h
          exact absurd h hs2
        · rename_i heq
          injection heq with h
          injection h with h
          exact absurd h hs3
      | null => rfl
      | bool b => rfl
      | num n => rfl
      | arr l => rfl
      | obj fs => rfl
    simp [execute_analytical_query, hcore]

theorem sanitizeRow_rowOfAchievement (st : Student) (a : Achievement) :
    sanitizeRow (rowOfAchievement st a) =
      [("achievement_id", .str a.achievement_id),
       ("type", .str (lowerStr a.atype)),
       ("title", .str a.title),
       ("description", .str a.description),
       ("date", .str a.adate),
       ("status", .str (lowerStr a.status)),
       ("approved_by", .str (lowerStr a.approved_by)),
       ("credit_awarded", .int a.credit_awarded),
       ("name", .str (lowerStr st.name)),
       ("email", .str st.email),
       ("student_id", .str st.student_id),
       ("department", .str (lowerStr st.department)),
       ("dob", .str st.dob)] := rfl

/-- C7: after loading, every row stores its `name`, `department`, `type`,
`status` and `approved_by` cells lower-cased (each is a fixed point of
lower-casing), and the structured filter compares against the lower-cased
externally supplied value, so the exact-match filter result is insensitive
to the case of the user-supplied filter value. -/
theorem claim_C7_lowercase_invariant :
    (∀ (students : List Student) (r : Row) (c : String),
      r ∈ loadStore students → c ∈ sanitizedCols →
      ∃ s, r.lookup c = some (CellVal.str s) ∧ lowerStr s = s) ∧
    (∀ (df : Table) (cf v w cr : String),
      lowerStr v = lowerStr w →
      execStructuredCore df (some (.obj
        [("column_to_filter", .str cf), ("filter_value", .str v),
         ("column_to_return", .str cr)])) =
      execStructuredCore df (some (.obj
        [("column_to_filter", .str cf), ("filter_value", .str w),
         ("column_to_return", .str cr)]))) := by
  constructor
  · intro students r c hr hc
    rcases List.mem_map.mp hr with ⟨r0, hr0, rfl⟩
    rcases List.mem_flatMap.mp hr0 with ⟨st, _, hr1⟩
    rcases List.mem_map.mp hr1 with ⟨a, _, rfl⟩
    rw [sanitizeRow_rowOfAchievement]
    simp only [sanitizedCols, List.mem_cons, List.not_mem_nil, or_false] at hc
    rcases hc with rfl | rfl | rfl | rfl | rfl
    · exact ⟨lowerStr st.name, rfl, lowerStr_idem _⟩
    · exact ⟨lowerStr st.department, rfl, lowerStr_idem _⟩
    · exact ⟨lowerStr a.atype, rfl, lowerStr_idem _⟩
    · exact ⟨lowerStr a.status, rfl, lowerStr_idem _⟩
    · exact ⟨lowerStr a.approved_by, rfl, lowerStr_idem _⟩
  · intro df cf v w cr hvw
    simp only [execStructuredCore, List.lookup,
      show ("column_to_filter" == "column_to_filter") = true from rfl,
      show ("filter_value" == "column_to_filter") = false from rfl,
      show ("filter_value" == "filter_value") = true from rfl,
      show ("column_to_return" == "column_to_filter") = false from rfl,
      show ("column_to_return" == "filter_value") = false from rfl,
      show ("column_to_return" == "column_to_return") = true from rfl,
      pyNotNone, pyTruthy]
    rw [hvw]

/-- C8 counterexample: the claimed rerank pass does not happen.  For the
question "Tell me about Alice" (which has the candidate proper name
`Alice`) and a retrieval returning one document that does not mention any
candidate name, the spec's rerank would keep no document, yet the
pipeline's synthesis context keeps the document unchanged. -/
theorem claim_C8_counterexample :
    rag_context (fun s => s)
      (fun _ => ["Student Name: bob. Achievement: seminar - robotics."])
      "Tell me about Alice"
      = ["Student Name: bob. Achievement: seminar - robotics."] ∧
    (splitWs "Tell me about Alice").filter isCandidateName ≠ [] ∧
    rerankBySpec "Tell me about Alice"
      ["Student Name: bob. Achievement: seminar - robotics."] 5 = [] := by
  refine ⟨rfl, by decide, by decide⟩

/-- C8 (amended): `create_rag_chain` applies no rerank pass at all: for
every question — with or without capitalized tokens — the context handed
to the synthesis prompt is exactly the retriever's result for the
rewritten question, in retrieval order, and the chain's answer is the
synthesis output over that unfiltered context. -/
theorem claim_C8_context_is_raw_retrieval :
    ∀ (rewrite : String → String) (retrieve : String → List String)
      (synth : List String → String → String) (q : String),
      rag_context rewrite retrieve q = retrieve (rewrite q) ∧
      rag_chain_invoke rewrite retrieve synth q =
        .str (synth (retrieve (rewrite q)) q) := by
  intro rewrite retrieve synth q
  exact ⟨rfl, rfl⟩

/-- C9: the claim describes the intended contract (`synthesize` returns
`{answer, context}` and the orchestrator reads `answer`), but the chain
built by `create_rag_chain` ends in `StrOutputParser` and hands the caller
a bare string, so `result_dict.get('answer', ...)` in `get_response`
raises `AttributeError` on every portfolio_summary request: the branch
always fails with an uncaught exception instead of returning the
summary. -/
theorem claim_C9_rag_chain_returns_bare_string :
    ∀ (rewrite : String → String) (retrieve : String → List String)
      (synth : List String → String → String) (q : String),
      rag_chain_invoke rewrite retrieve synth q =
        .str (synth (rag_context rewrite retrieve q) q) ∧
      get_response_portfolio rewrite retrieve synth q = .error .uncaught := by
  intro rewrite retrieve synth q
  exact ⟨rfl, rfl⟩

/-- Witness for C1 at a concrete input: the filter `type = "Conference"`
matches no row of the two-row table, and the engine returns the fixed
no-results message. -/
theorem claim_C1_simple_filter_postprocessing_witness :
    execute_structured_query
      [[("type", CellVal.str "workshop"), ("name", CellVal.str "alice")],
       [("type", CellVal.str "seminar"), ("name", CellVal.str "bob")]]
      (some (.obj [("column_to_filter", .str "type"),
                   ("filter_value", .str "Conference"),
                   ("column_to_return", .str "name")]))
      = .ok noResultsMsg := by
  refine (claim_C1_simple_filter_postprocessing.2
    [[("type", CellVal.str "workshop"), ("name", CellVal.str "alice")],
     [("type", CellVal.str "seminar"), ("name", CellVal.str "bob")]]
    [("column_to_filter", .str "type"),
     ("filter_value", .str "Conference"),
     ("column_to_return", .str "name")]
    "type" "Conference" "name" rfl rfl rfl (by decide) (by decide)
    (by decide) (by decide) ?_).1 rfl
  intro c hc
  have hcv : colVals
      [[("type", CellVal.str "workshop"), ("name", CellVal.str "alice")],
       [("type", CellVal.str "seminar"), ("name", CellVal.str "bob")]]
      "name" = [CellVal.str "alice", CellVal.str "bob"] := rfl
  rw [hcv] at hc
  rcases List.mem_cons.mp hc with rfl | hc2
  · exact ⟨"alice", rfl⟩
  rcases List.mem_cons.mp hc2 with rfl | hc3
  · exact ⟨"bob", rfl⟩
  · exact absurd hc3 (List.not_mem_nil c)

/-- Witness for C2 at a concrete input. -/
theorem claim_C2_simple_filter_execution_witness :
    execStructuredCore
      [[("type", CellVal.str "workshop"), ("name", CellVal.str "alice")],
       [("type", CellVal.str "seminar"), ("name", CellVal.str "bob")]]
      (some (.obj [("column_to_filter", .str "type"),
                   ("filter_value", .str "workshop"),
                   ("column_to_return", .str "name")]))
      = resultTextOf (colVals (List.filter
          (fun r => r.lookup "type" ==
            some (CellVal.str (lowerStr "workshop")))
          [[("type", CellVal.str "workshop"), ("name", CellVal.str "alice")],
           [("type", CellVal.str "seminar"), ("name", CellVal.str "bob")]])
          "name") :=
  claim_C2_simple_filter_execution.1
    [[("type", CellVal.str "workshop"), ("name", CellVal.str "alice")],
     [("type", CellVal.str "seminar"), ("name", CellVal.str "bob")]]
    [("column_to_filter", .str "type"),
     ("filter_value", .str "workshop"),
     ("column_to_return", .str "name")]
    "type" "workshop" "name" rfl rfl rfl
    (by decide) (by decide) (by decide) (by decide)

/-- Witness for C3 at a concrete table (alice: 3+4 credits, bob: 5). -/
theorem claim_C3_idxmax_prose_sentence_witness :
    ∃ s : String,
      CellVal.str s ∈ colVals
        [[("name", CellVal.str "alice"), ("credit_awarded", CellVal.int 3)],
         [("name", CellVal.str "bob"), ("credit_awarded", CellVal.int 5)],
         [("name", CellVal.str "alice"), ("credit_awarded", CellVal.int 4)]]
        "name" ∧
      (∀ k ∈ colVals
        [[("name", CellVal.str "alice"), ("credit_awarded", CellVal.int 3)],
         [("name", CellVal.str "bob"), ("credit_awarded", CellVal.int 5)],
         [("name", CellVal.str "alice"), ("credit_awarded", CellVal.int 4)]]
        "name",
        sumFor
          [[("name", CellVal.str "alice"), ("credit_awarded", CellVal.int 3)],
           [("name", CellVal.str "bob"), ("credit_awarded", CellVal.int 5)],
           [("name", CellVal.str "alice"), ("credit_awarded", CellVal.int 4)]]
          "name" "credit_awarded" k ≤
        sumFor
          [[("name", CellVal.str "alice"), ("credit_awarded", CellVal.int 3)],
           [("name", CellVal.str "bob"), ("credit_awarded", CellVal.int 5)],
           [("name", CellVal.str "alice"), ("credit_awarded", CellVal.int 4)]]
          "name" "credit_awarded" (CellVal.str s)) ∧
      execute_analytical_query
        [[("name", CellVal.str "alice"), ("credit_awarded", CellVal.int 3)],
         [("name", CellVal.str "bob"), ("credit_awarded", CellVal.int 5)],
         [("name", CellVal.str "alice"), ("credit_awarded", CellVal.int 4)]]
        (some (.obj [("groupby_col", .str "name"),
                     ("agg_col", .str "credit_awarded"),
                     ("agg_func", .str "idxmax")]))
        = "The result is: " ++ pyTitle s := by
  refine claim_C3_idxmax_prose_sentence
    [[("name", CellVal.str "alice"), ("credit_awarded", CellVal.int 3)],
     [("name", CellVal.str "bob"), ("credit_awarded", CellVal.int 5)],
     [("name", CellVal.str "alice"), ("credit_awarded", CellVal.int 4)]]
    [("groupby_col", .str "name"), ("agg_col", .str "credit_awarded"),
     ("agg_func", .str "idxmax")]
    "name" "credit_awarded" rfl rfl rfl (by decide) (by decide)
    ?_ ?_ (by decide)
  · intro c hc
    have hcv : colVals
        [[("name", CellVal.str "alice"), ("credit_awarded", CellVal.int 3)],
         [("name", CellVal.str "bob"), ("credit_awarded", CellVal.int 5)],
         [("name", CellVal.str "alice"), ("credit_awarded", CellVal.int 4)]]
        "name" = [CellVal.str "alice", CellVal.str "bob",
          CellVal.str "alice"] := rfl
    rw [hcv] at hc
    rcases List.mem_cons.mp hc with rfl | hc2
    · exact ⟨"alice", rfl⟩
    rcases List.mem_cons.mp hc2 with rfl | hc3
    · exact ⟨"bob", rfl⟩
    rcases List.mem_cons.mp hc3 with rfl | hc4
    · exact ⟨"alice", rfl⟩
    · exact absurd hc4 (List.not_mem_nil c)
  · intro c hc
    have hcv : colVals
        [[("name", CellVal.str "alice"), ("credit_awarded", CellVal.int 3)],
         [("name", CellVal.str "bob"), ("credit_awarded", CellVal.int 5)],
         [("name", CellVal.str "alice"), ("credit_awarded", CellVal.int 4)]]
        "credit_awarded" = [CellVal.int 3, CellVal.int 5,
          CellVal.int 4] := rfl
    rw [hcv] at hc
    rcases List.mem_cons.mp hc with rfl | hc2
    · exact ⟨3, rfl⟩
    rcases List.mem_cons.mp hc2 with rfl | hc3
    · exact ⟨5, rfl⟩
    rcases List.mem_cons.mp hc3 with rfl | hc4
    · exact ⟨4, rfl⟩
    · exact absurd hc4 (List.not_mem_nil c)

/-- Witness for C4 at a concrete table: sum of credits per name, sorted
descending, top 1. -/
theorem claim_C4_sum_count_aggregation_witness :
    ∃ ps : List (CellVal × Int),
      (ps.map Prod.fst).Nodup ∧
      (∀ k n, (k, n) ∈ ps ↔ k ∈ colVals
        [[("name", CellVal.str "alice"), ("credit_awarded", CellVal.int 3)],
         [("name", CellVal.str "bob"), ("credit_awarded", CellVal.int 5)],
         [("name", CellVal.str "alice"), ("credit_awarded", CellVal.int 4)]]
        "name" ∧ n = sumFor
          [[("name", CellVal.str "alice"), ("credit_awarded", CellVal.int 3)],
           [("name", CellVal.str "bob"), ("credit_awarded", CellVal.int 5)],
           [("name", CellVal.str "alice"), ("credit_awarded", CellVal.int 4)]]
          "name" "credit_awarded" k) ∧
      ps.Pairwise (fun p q => if false = true then p.2 ≤ q.2 else q.2 ≤ p.2) ∧
      execute_analytical_query
        [[("name", CellVal.str "alice"), ("credit_awarded", CellVal.int 3)],
         [("name", CellVal.str "bob"), ("credit_awarded", CellVal.int 5)],
         [("name", CellVal.str "alice"), ("credit_awarded", CellVal.int 4)]]
        (some (.obj [("groupby_col", .str "name"),
                     ("agg_col", .str "credit_awarded"),
                     ("agg_func", .str "sum"),
                     ("sort_ascending", .bool false),
                     ("top_n", .num 1)]))
        = (if (ps.take (Int.toNat 1)).isEmpty then noResultsMsg
           else "Here are the results:\n" ++ joinSep "\n"
             (numberFrom 1 ((ps.take (Int.toNat 1)).map
               (fun p => pyTitle (cellStr p.1))))) := by
  refine claim_C4_sum_count_aggregation.1
    [[("name", CellVal.str "alice"), ("credit_awarded", CellVal.int 3)],
     [("name", CellVal.str "bob"), ("credit_awarded", CellVal.int 5)],
     [("name", CellVal.str "alice"), ("credit_awarded", CellVal.int 4)]]
    [("groupby_col", .str "name"), ("agg_col", .str "credit_awarded"),
     ("agg_func", .str "sum"), ("sort_ascending", .bool false),
     ("top_n", .num 1)]
    "name" "credit_awarded" false 1 rfl rfl rfl (by decide) (by decide)
    ?_ ?_ (Or.inr rfl) (Or.inr ⟨rfl, by decide⟩)
  · intro c hc
    have hcv : colVals
        [[("name", CellVal.str "alice"), ("credit_awarded", CellVal.int 3)],
         [("name", CellVal.str "bob"), ("credit_awarded", CellVal.int 5)],
         [("name", CellVal.str "alice"), ("credit_awarded", CellVal.int 4)]]
        "name" = [CellVal.str "alice", CellVal.str "bob",
          CellVal.str "alice"] := rfl
    rw [hcv] at hc
    rcases List.mem_cons.mp hc with rfl | hc2
    · exact ⟨"alice", rfl⟩
    rcases List.mem_cons.mp hc2 with rfl | hc3
    · exact ⟨"bob", rfl⟩
    rcases List.mem_cons.mp hc3 with rfl | hc4
    · exact ⟨"alice", rfl⟩
    · exact absurd hc4 (List.not_mem_nil c)
  · intro c hc
    have hcv : colVals
        [[("name", CellVal.str "alice"), ("credit_awarded", CellVal.int 3)],
         [("name", CellVal.str "bob"), ("credit_awarded", CellVal.int 5)],
         [("name", CellVal.str "alice"), ("credit_awarded", CellVal.int 4)]]
        "credit_awarded" = [CellVal.int 3, CellVal.int 5,
          CellVal.int 4] := rfl
    rw [hcv] at hc
    rcases List.mem_cons.mp hc with rfl | hc2
    · exact ⟨3, rfl⟩
    rcases List.mem_cons.mp hc2 with rfl | hc3
    · exact ⟨5, rfl⟩
    rcases List.mem_cons.mp hc3 with rfl | hc4
    · exact ⟨4, rfl⟩
    · exact absurd hc4 (List.not_mem_nil c)

/-- Witness for C6 at a concrete classifier response. -/
theorem claim_C6_router_priority_witness :
    routeOf "general_query" = Route.general_query :=
  (claim_C6_router_priority.1 "general_query").2.1 (by decide) (by decide)

/-- Witness for C7 at a concrete student record and two case variants of
the same filter value. -/
theorem claim_C7_lowercase_invariant_witness :
    (∃ s, (sanitizeRow (rowOfAchievement
        ⟨"Alice Smith", "alice@uni.edu", "STU001", "Chemistry", "2001-01-01",
         [⟨"A1", "Workshop", "Intro", "Desc", "2024-01-01", "Approved",
           "Dr Jones", 3⟩]⟩
        ⟨"A1", "Workshop", "Intro", "Desc", "2024-01-01", "Approved",
         "Dr Jones", 3⟩)).lookup "name" = some (CellVal.str s) ∧
      lowerStr s = s) ∧
    execStructuredCore
      [[("type", CellVal.str "workshop"), ("name", CellVal.str "alice")]]
      (some (.obj [("column_to_filter", .str "type"),
                   ("filter_value", .str "WorkShop"),
                   ("column_to_return", .str "name")]))
      = execStructuredCore
      [[("type", CellVal.str "workshop"), ("name", CellVal.str "alice")]]
      (some (.obj [("column_to_filter", .str "type"),
                   ("filter_value", .str "workshop"),
                   ("column_to_return", .str "name")])) :=
  ⟨claim_C7_lowercase_invariant.1
      [⟨"Alice Smith", "alice@uni.edu", "STU001", "Chemistry", "2001-01-01",
        [⟨"A1", "Workshop", "Intro", "Desc", "2024-01-01", "Approved",
          "Dr Jones", 3⟩]⟩]
      _ "name" (by decide) (by decide),
   claim_C7_lowercase_invariant.2
      [[("type", CellVal.str "workshop"), ("name", CellVal.str "alice")]]
      "type" "WorkShop" "workshop" "name" (by decide)⟩

/-- Witness for C10 at a concrete input: `filter_value` is the JSON number
5. -/
theorem claim_C10_nonstring_filter_value_escapes_witness :
    execute_structured_query
      [[("type", CellVal.str "workshop"), ("name", CellVal.str "alice")]]
      (some (.obj [("column_to_filter", .str "type"),
                   ("filter_value", .num 5),
                   ("column_to_return", .str "name")]))
      = .error .uncaught ∧
    query_data
      [[("type", CellVal.str "workshop"), ("name", CellVal.str "alice")]]
      "simple_filter"
      (some (.obj [("column_to_filter", .str "type"),
                   ("filter_value", .num 5),
                   ("column_to_return", .str "name")])) none
      = routerApology :=
  claim_C10_nonstring_filter_value_escapes.1
    [[("type", CellVal.str "workshop"), ("name", CellVal.str "alice")]]
    [("column_to_filter", .str "type"), ("filter_value", .num 5),
     ("column_to_return", .str "name")]
    "type" "name" (.num 5) none rfl (by decide) (by decide) rfl
    (Or.inl ⟨5, rfl⟩) rfl (by decide)
